import Mathlib

/-!
Shallow embedding of the `terrarium` template-repository library
(src/terarium.rs and src/terrarist.rs).

Rust `HashMap` is modelled as an association list with unique keys:
`hmInsert` replaces the value of an existing key in place (or appends),
`hmGet` looks a key up.  Iteration over a map is iteration over the list.

The external `tera` engine is opaque in the source; it is modelled by an
`Engine` record supplying a compile step (used by `add_raw_template`) and
a render step (used by `Tera.render`).  `TeraError` is an opaque
diagnostic, modelled as a string.
-/

section HashMapModel

variable {K V : Type} [DecidableEq K]

/-- Model of `HashMap::get`: first (unique) binding of the key. -/
def hmGet : List (K × V) → K → Option V
  | [], _ => none
  | (k', v') :: rest, k => if k = k' then some v' else hmGet rest k

/-- Model of `HashMap::insert`: replace the binding in place, or append. -/
def hmInsert (k : K) (v : V) : List (K × V) → List (K × V)
  | [] => [(k, v)]
  | (k', v') :: rest => if k = k' then (k, v) :: rest else (k', v') :: hmInsert k v rest

/-- Model of `HashMap::contains_key`. -/
def hmContains (m : List (K × V)) (k : K) : Bool :=
  (hmGet m k).isSome

end HashMapModel

instance {e a : Type} [DecidableEq e] [DecidableEq a] : DecidableEq (Except e a) :=
  fun x y =>
    match x, y with
    | .ok u, .ok v =>
      if h : u = v then .isTrue (by rw [h]) else .isFalse (fun hh => h (Except.ok.inj hh))
    | .ok _, .error _ => .isFalse (fun hh => Except.noConfusion hh)
    | .error _, .ok _ => .isFalse (fun hh => Except.noConfusion hh)
    | .error u, .error v =>
      if h : u = v then .isTrue (by rw [h])
      else .isFalse (fun hh => h (Except.error.inj hh))

/-- Opaque diagnostic produced by the external `tera` engine. -/
def TeraError : Type := String

instance : DecidableEq TeraError := fun a b => String.decEq a b

/-- Render-time context: an opaque key-to-value mapping supplied by the
caller (spec section 6). -/
def Context : Type := List (String × String)

/-- Model of the external `tera` collaborator: a compile step deciding
whether a raw body compiles, and a render step expanding a compiled body
against a context.  Both are opaque in the source. -/
structure Engine where
  compile : String → Except TeraError Unit
  render : String → Context → Except TeraError String

/-- Model of a `Tera` instance: the store of compiled templates,
keyed by handle name (`add_raw_template` registers them). -/
structure Tera where
  templates : List (String × String)
deriving DecidableEq

def Tera.empty : Tera := ⟨[]⟩

/-- Model of `Tera::add_raw_template(name, body)`: compile the body and, on
success, register it under `name` (replacing any previous binding). -/
def Tera.add_raw_template (eng : Engine) (t : Tera) (nm body : String) :
    Except TeraError Tera :=
  match eng.compile body with
  | .ok _ => .ok ⟨hmInsert nm body t.templates⟩
  | .error e => .error e

/-- Model of `Tera::render(name, context)`: look the compiled body up by
handle name and run the engine's render step on it. -/
def Tera.render (eng : Engine) (t : Tera) (nm : String) (ctx : Context) :
    Except TeraError String :=
  match hmGet t.templates nm with
  | some body => eng.render body ctx
  | none => .error (String.append "unknown template " nm)

/-- Modelled from the spec: `Content` (defined in the crate root, which is
not among the given sources).  A raw template body, the set of locale keys
it serves, and an optional explicit caller-assigned handle name — the three
fields `build()` in src/src/terarium.rs reads (`content.content`,
`content.languages`, `content.name`). -/
structure Content where
  content : String
  languages : List String
  name : Option String
deriving DecidableEq

/-- Modelled from the spec: `Template` (crate root, not among the given
sources).  An insertion-ordered list of `Content` variants;
`collect_contents` exposes them in insertion order (spec section 4.1). -/
structure Template where
  contents : List Content
deriving DecidableEq

def Template.collect_contents (t : Template) : List Content := t.contents

/-- `TerariumError` from src/src/terarium.rs. -/
inductive TerariumError
  | TemplateNotFound
  | LanguageNotFound
  | GroupNotFound
  | RenderingFailed (e : TeraError)
deriving DecidableEq

/-- `Terarium` from src/src/terarium.rs: the built, immutable repository. -/
structure Terarium where
  tera : Tera
  template_map : List (String × List (String × String))
  groups : List (String × List (String × String))
deriving DecidableEq

def Terarium.empty : Terarium := ⟨Tera.empty, [], []⟩

/-- `Terarium::render_template` (src/src/terarium.rs lines 28-50). -/
def Terarium.render_template (eng : Engine) (self : Terarium) (context : Context)
    (template_key : String) (language : String) (fallback_language : Option String) :
    Except TerariumError String :=
  match hmGet self.template_map template_key with
  | none => .error .TemplateNotFound
  | some template =>
    match (hmGet template language).orElse
        (fun _ => (fallback_language.map (fun k => hmGet template k)).join) with
    | none => .error .LanguageNotFound
    | some content_key =>
      match Tera.render eng self.tera content_key context with
      | .ok s => .ok s
      | .error e => .error (.RenderingFailed e)

/-- The member-rendering loop of `Terarium::render_group`
(src/src/terarium.rs lines 70-73): iterate over the group's members,
render each referenced template, insert the result under the member key;
the `?` propagation aborts on the first failure. -/
def Terarium.renderMembers (eng : Engine) (self : Terarium) (context : Context)
    (language : String) (fallback_language : Option String) :
    List (String × String) → List (String × String) →
    Except TerariumError (List (String × String))
  | result, [] => .ok result
  | result, (member_key, template_key) :: rest =>
    match self.render_template eng context template_key language fallback_language with
    | .ok content =>
      self.renderMembers eng context language fallback_language
        (hmInsert member_key content result) rest
    | .error e => .error e

/-- `Terarium::render_group` (src/src/terarium.rs lines 54-76). -/
def Terarium.render_group (eng : Engine) (self : Terarium) (context : Context)
    (group_key : String) (language : String) (fallback_language : Option String) :
    Except TerariumError (List (String × String)) :=
  match hmGet self.groups group_key with
  | none => .error .GroupNotFound
  | some group => self.renderMembers eng context language fallback_language [] group

/-- The group-validity scan shared verbatim by
`TerariumBuilder::check_group_config_validity` (src/src/terarium.rs
lines 129-143) and `TerraristBuilder::check_group_config_validity`
(src/src/terrarist.rs lines 63-77): for every group, for every member
whose referenced template key is missing from the template set, emit a
(group key, member key, template key) triple; concatenate with `flatten`. -/
def checkGroups {TK GK MK T : Type} [DecidableEq TK]
    (templates : List (TK × T)) (groups : List (GK × List (MK × TK))) :
    List (GK × MK × TK) :=
  (groups.map (fun g =>
    (g.2.filter (fun m => !(hmContains templates m.2))).map
      (fun m => (g.1, m.1, m.2)))).flatten

/-- `TerariumBuilderError` from src/src/terarium.rs. -/
inductive TerariumBuilderError
  | TemplateBuildingError (e : TeraError)
  | GroupIntegrityProblem (l : List (String × String × String))
deriving DecidableEq

/-- `TerariumBuilder` from src/src/terarium.rs: the mutable staging area. -/
structure TerariumBuilder where
  templates : List (String × Template)
  groups : List (String × List (String × String))

def TerariumBuilder.empty : TerariumBuilder := ⟨[], []⟩

/-- `TerariumBuilder::add_template` (src/src/terarium.rs lines 111-114). -/
def TerariumBuilder.add_template (self : TerariumBuilder) (key : String)
    (template : Template) : TerariumBuilder :=
  { self with templates := hmInsert key template self.templates }

/-- `TerariumBuilder::add_group` (src/src/terarium.rs lines 117-120). -/
def TerariumBuilder.add_group (self : TerariumBuilder) (key : String)
    (group : List (String × String)) : TerariumBuilder :=
  { self with groups := hmInsert key group self.groups }

/-- `TerariumBuilder::check_group_config_validity`
(src/src/terarium.rs lines 129-143). -/
def TerariumBuilder.check_group_config_validity (self : TerariumBuilder) :
    List (String × String × String) :=
  checkGroups self.templates self.groups

/-- The synthetic handle name of one content variant compiled when the
counter stands at `n` (src/src/terarium.rs line 158):
`content.name.unwrap_or_else(|| format!("template#{}", tera_template_id))`. -/
def contentName (c : Content) (n : Nat) : String :=
  c.name.getD (String.append "template#" (toString n))

/-- The locale-recording loop of `TerariumBuilder::build`
(src/src/terarium.rs lines 162-168): for every locale tag, record
(template key, locale key) → handle name into the index, creating the
inner map on first use (`entry(..).or_default()`) and overwriting any
existing binding for that locale (`insert`). -/
def recordLangs (template_key nm : String) (langs : List String)
    (tm : List (String × List (String × String))) :
    List (String × List (String × String)) :=
  langs.foldl (fun tm lk =>
    hmInsert template_key (hmInsert lk nm ((hmGet tm template_key).getD [])) tm) tm

/-- One iteration of the inner `try_for_each` of `TerariumBuilder::build`
(src/src/terarium.rs lines 157-171): pick the handle name, bump the
counter (unconditionally — line 159 runs whether or not the variant had an
explicit name), register the body with tera (propagating compile failure),
then record the locale tags. -/
def processContent (eng : Engine) (template_key : String)
    (st : Nat × Terarium) (c : Content) :
    Except TerariumBuilderError (Nat × Terarium) :=
  let nm := contentName c st.1
  match Tera.add_raw_template eng st.2.tera nm c.content with
  | .error e => .error (.TemplateBuildingError e)
  | .ok tera' =>
    .ok (st.1 + 1,
      { st.2 with tera := tera',
                  template_map := recordLangs template_key nm c.languages st.2.template_map })

/-- The inner `try_for_each` of `TerariumBuilder::build` over one
template's content variants, in insertion order. -/
def processContents (eng : Engine) (template_key : String) :
    Nat × Terarium → List Content → Except TerariumBuilderError (Nat × Terarium)
  | st, [] => .ok st
  | st, c :: cs =>
    match processContent eng template_key st c with
    | .ok st' => processContents eng template_key st' cs
    | .error e => .error e

/-- The outer `try_for_each` of `TerariumBuilder::build` over the stored
templates. -/
def processTemplates (eng : Engine) :
    Nat × Terarium → List (String × Template) →
    Except TerariumBuilderError (Nat × Terarium)
  | st, [] => .ok st
  | st, (template_key, template) :: rest =>
    match processContents eng template_key st template.collect_contents with
    | .ok st' => processTemplates eng st' rest
    | .error e => .error e

/-- `TerariumBuilder::build` (src/src/terarium.rs lines 146-177). -/
def TerariumBuilder.build (eng : Engine) (self : TerariumBuilder) :
    Except TerariumBuilderError Terarium :=
  let check_result := self.check_group_config_validity
  if check_result.isEmpty then
    match processTemplates eng (1, Terarium.empty) self.templates with
    | .ok st => .ok { st.2 with groups := self.groups }
    | .error e => .error e
  else .error (.GroupIntegrityProblem check_result)

/-- `TerraristBuilderError` from src/src/terrarist.rs: the non-validating
builder's error type has a single variant. -/
inductive TerraristBuilderError
  | TemplateBuildingError (e : TeraError)
deriving DecidableEq

/-- `Terrarist` from src/src/terrarist.rs: only the tera store. -/
structure Terrarist where
  tera : Tera
deriving DecidableEq

/-- Modelled from the spec: the generic `Template<LocaleKey>` of
src/src/terrarist.rs (defined in the crate root, not among the given
sources); its `collect_contents` yields (raw body, locale list) pairs, as
destructured by `TerraristBuilder::build` (src/src/terrarist.rs line 84).
Key types are instantiated at `Nat`, as in the source's tests. -/
structure TemplateT where
  contents : List (String × List Nat)
deriving DecidableEq

/-- `TerraristBuilder` from src/src/terrarist.rs with all four generic key
types instantiated at `Nat`. -/
structure TerraristBuilder where
  templates : List (Nat × TemplateT)
  groups : List (Nat × List (Nat × Nat))

/-- `TerraristBuilder::check_group_config_validity`
(src/src/terrarist.rs lines 63-77). -/
def TerraristBuilder.check_group_config_validity (self : TerraristBuilder) :
    List (Nat × Nat × Nat) :=
  checkGroups self.templates self.groups

/-- The inner `try_for_each` of `TerraristBuilder::build`
(src/src/terrarist.rs lines 84-89): every variant gets the synthetic
counter name; locale tags are ignored. -/
def terraristContents (eng : Engine) :
    Nat × Terrarist → List (String × List Nat) →
    Except TerraristBuilderError (Nat × Terrarist)
  | st, [] => .ok st
  | st, c :: cs =>
    match Tera.add_raw_template eng st.2.tera
        (String.append "template#" (toString st.1)) c.1 with
    | .ok tera' => terraristContents eng (st.1 + 1, ⟨tera'⟩) cs
    | .error e => .error (.TemplateBuildingError e)

/-- The outer `try_for_each` of `TerraristBuilder::build`
(src/src/terrarist.rs lines 83-91). -/
def terraristTemplates (eng : Engine) :
    Nat × Terrarist → List (Nat × TemplateT) →
    Except TerraristBuilderError (Nat × Terrarist)
  | st, [] => .ok st
  | st, kt :: rest =>
    match terraristContents eng st kt.2.contents with
    | .ok st' => terraristTemplates eng st' rest
    | .error e => .error e

/-- `TerraristBuilder::build` (src/src/terrarist.rs lines 79-93): no group
check at all; compile every variant, then return the instance. -/
def TerraristBuilder.build (eng : Engine) (self : TerraristBuilder) :
    Except TerraristBuilderError Terrarist :=
  match terraristTemplates eng ((1 : Nat), (⟨Tera.empty⟩ : Terrarist)) self.templates with
  | .ok st => .ok st.2
  | .error e => .error e

/-- Inner-map lookup in the (TemplateKey, LocaleKey) → handle-name index:
the handle name a built repository's index holds for `(tk, lk)` (absent
outer entries read as an empty inner map). -/
def hmGet2 (tm : List (String × List (String × String))) (tk lk : String) :
    Option String :=
  hmGet ((hmGet tm tk).getD []) lk

/-- The handle name that the last content variant (in insertion order)
tagged with locale `lk` receives, when compilation of the listed variants
starts with the counter at `n`: later variants take precedence, and each
variant consumes one counter value. -/
def lastNameFor : Nat → List Content → String → Option String
  | _, [], _ => none
  | n, c :: cs, lk =>
    match lastNameFor (n + 1) cs lk with
    | some nm => some nm
    | none => if lk ∈ c.languages then some (contentName c n) else none

/-- Number of content variants stored under keys that precede `tk` in the
builder's template list: the counter advance accumulated before `tk`'s
own variants are compiled. -/
def contentsBefore : List (String × Template) → String → Nat
  | [], _ => 0
  | (k, t) :: rest, tk =>
    if tk = k then 0 else t.contents.length + contentsBefore rest tk

/-- A concrete engine for witnesses: every body compiles, and rendering
returns the body itself (the engine is opaque to all claims). -/
def okEngine : Engine :=
  ⟨fun _ => .ok (), fun body _ => .ok body⟩

/-- Builder probing the counter behaviour: one template with a named
variant followed by an unnamed one. -/
def c2Builder : TerariumBuilder :=
  ⟨[("t", ⟨[⟨"bodyA", ["en"], some "custom"⟩, ⟨"bodyB", ["cs"], none⟩]⟩)], []⟩

/-- The handle name the index records for the unnamed variant of
`c2Builder` (locale `cs`). -/
def c2Probe : Option String :=
  match c2Builder.build okEngine with
  | .ok inst => hmGet2 inst.template_map "t" "cs"
  | .error _ => none

/-- The template set of the repository's own
`check_group_configuration` test: templates under keys `1` and `2`. -/
def c3Templates : List (String × Template) :=
  [("1", ⟨[]⟩), ("2", ⟨[]⟩)]

/-- The group set of that test: one group `100` whose members reference
templates `1`, `2` and the missing `3`. -/
def c3Groups : List (String × List (String × String)) :=
  [("100", [("10", "1"), ("20", "2"), ("30", "3")])]

/-- A template whose second variant retags locale `en`. -/
def c8Template : Template :=
  ⟨[⟨"bodyA", ["en"], none⟩, ⟨"bodyB", ["en", "cs"], none⟩]⟩

/-- Builder whose single template retags locale `en` with a second
variant. -/
def c8Builder : TerariumBuilder :=
  ⟨[("t", c8Template)], []⟩

/-- The repository built from `c8Builder`. -/
def c8Inst : Terarium :=
  match c8Builder.build okEngine with
  | .ok inst => inst
  | .error _ => Terarium.empty

/-- Builder holding an empty template under key `k`, referenced by a
group: group validation passes, build succeeds, yet `k` never reaches the
index. -/
def c10Builder : TerariumBuilder :=
  ⟨[("k", ⟨[]⟩), ("other", ⟨[⟨"body", ["en"], none⟩]⟩)], [("g", [("m", "k")])]⟩

/-- The repository built from `c10Builder`. -/
def c10Inst : Terarium :=
  match c10Builder.build okEngine with
  | .ok inst => inst
  | .error _ => Terarium.empty

/-- Non-validating builder whose group references the missing template
key `99`. -/
def c9Builder : TerraristBuilder :=
  ⟨[(1, ⟨[("body1", [1])]⟩)], [(100, [(10, 99)])]⟩

/-- The repository test fixture of spec section 8: `template_a` in locales
`cs` and `en`, `template_b` only in `en`, and group `group_a` with members
`A` and `B`. -/
def specBuilder : TerariumBuilder :=
  ((TerariumBuilder.empty.add_template "template_a"
      ⟨[⟨"body_a_cs", ["cs"], none⟩, ⟨"body_a_en", ["en"], none⟩]⟩).add_template
    "template_b" ⟨[⟨"body_b_en", ["en"], none⟩]⟩).add_group "group_a"
      [("A", "template_a"), ("B", "template_b")]

/-- The repository built from `specBuilder`. -/
def specInst : Terarium :=
  match specBuilder.build okEngine with
  | .ok inst => inst
  | .error _ => Terarium.empty

/-- The handle-rendering tail of `Terarium::render_template`
(src/src/terarium.rs line 49): render the resolved handle, wrapping any
engine failure in `RenderingFailed` (the `From<TeraError>` impl). -/
def renderHandle (eng : Engine) (self : Terarium) (content_key : String)
    (ctx : Context) : Except TerariumError String :=
  match Tera.render eng self.tera content_key ctx with
  | .ok s => .ok s
  | .error e => .error (.RenderingFailed e)

/-- The locale map `specInst` holds for `template_a`. -/
def specTemplateA : List (String × String) :=
  [("cs", "template#1"), ("en", "template#2")]

/-- Builder with the invalid group configuration of `c3Groups`. -/
def c4Builder : TerariumBuilder := ⟨c3Templates, c3Groups⟩

/-- A content variant carrying an explicit caller-assigned name. -/
def namedContent : Content := ⟨"bodyA", ["en"], some "custom"⟩

/-- The state after compiling `namedContent` from counter 1. -/
def c2Step : Nat × Terarium :=
  match processContent okEngine "t" (1, Terarium.empty) namedContent with
  | .ok st => st
  | .error _ => (0, Terarium.empty)

/-! ## Helper lemmas -/

section HashMapLemmas

variable {K V : Type} [DecidableEq K]

theorem hmGet_hmInsert (k k' : K) (v : V) (m : List (K × V)) :
    hmGet (hmInsert k v m) k' = if k' = k then some v else hmGet m k' := by
  induction m with
  | nil => simp [hmInsert, hmGet]
  | cons hd tl ih =>
    obtain ⟨k₀, v₀⟩ := hd
    by_cases hk : k = k₀
    · subst hk
      by_cases hk' : k' = k <;> simp [hmInsert, hmGet, hk']
    · by_cases hk' : k' = k₀
      · subst hk'
        simp [hmInsert, hmGet, hk, Ne.symm hk]
      · simp [hmInsert, hmGet, hk, hk', ih]

theorem hmGet_hmInsert_self (k : K) (v : V) (m : List (K × V)) :
    hmGet (hmInsert k v m) k = some v := by
  simp [hmGet_hmInsert]

theorem hmGet_hmInsert_ne (k k' : K) (v : V) (m : List (K × V)) (h : k' ≠ k) :
    hmGet (hmInsert k v m) k' = hmGet m k' := by
  simp [hmGet_hmInsert, h]

theorem hmGet_eq_none_of_not_mem_keys (m : List (K × V)) (k : K)
    (h : k ∉ m.map Prod.fst) : hmGet m k = none := by
  induction m with
  | nil => rfl
  | cons hd tl ih =>
    obtain ⟨k₀, v₀⟩ := hd
    simp only [List.map_cons, List.mem_cons] at h
    push_neg at h
    simp [hmGet, h.1, ih h.2]

theorem hmGet_eq_some_of_mem (m : List (K × V)) (k : K) (v : V)
    (hnd : (m.map Prod.fst).Nodup) (h : (k, v) ∈ m) : hmGet m k = some v := by
  induction m with
  | nil => simp at h
  | cons hd tl ih =>
    obtain ⟨k₀, v₀⟩ := hd
    simp only [List.map_cons, List.nodup_cons] at hnd
    rcases List.mem_cons.mp h with hh | hh
    · rw [Prod.mk.injEq] at hh
      simp [hmGet, hh.1, hh.2]
    · have hk : k ≠ k₀ := by
        rintro rfl
        exact hnd.1 (List.mem_map.mpr ⟨(k, v), hh, rfl⟩)
      simp [hmGet, hk, ih hnd.2 hh]

end HashMapLemmas

/-! ## Claim theorems -/

/-- C7: for every template key absent from the repository's index,
`render_template` returns `TemplateNotFound`; for every group key absent
from the groups map, `render_group` returns `GroupNotFound`. -/
theorem render_absent_keys (eng : Engine) (self : Terarium) (ctx : Context)
    (tk lk : String) (fb : Option String) (gk : String) :
    (hmGet self.template_map tk = none →
      self.render_template eng ctx tk lk fb = .error .TemplateNotFound)
    ∧ (hmGet self.groups gk = none →
      self.render_group eng ctx gk lk fb = .error .GroupNotFound) := by
  constructor
  · intro h
    simp [Terarium.render_template, h]
  · intro h
    simp [Terarium.render_group, h]

/-- Witness for C7 at the spec's fixture: key `nope` is in neither map. -/
theorem render_absent_keys_witness :
    (hmGet specInst.template_map "nope" = none ∧ hmGet specInst.groups "nope" = none)
    ∧ specInst.render_template okEngine ([] : Context) "nope" "cs" none
        = .error .TemplateNotFound
    ∧ specInst.render_group okEngine ([] : Context) "nope" "cs" none
        = .error .GroupNotFound :=
  ⟨⟨by decide, by decide⟩,
    (render_absent_keys okEngine specInst ([] : Context) "nope" "cs" none "nope").1
      (by decide),
    (render_absent_keys okEngine specInst ([] : Context) "nope" "cs" none "nope").2
      (by decide)⟩

/-- C4: whenever `check_group_config_validity` is non-empty, `build`
returns `GroupIntegrityProblem` carrying exactly that violation list —
for every engine, so no compilation influences the outcome and no
repository is produced. -/
theorem build_group_integrity (eng : Engine) (self : TerariumBuilder)
    (h : self.check_group_config_validity ≠ []) :
    self.build eng
      = .error (.GroupIntegrityProblem self.check_group_config_validity) := by
  have hne : self.check_group_config_validity.isEmpty = false := by
    cases hc : self.check_group_config_validity with
    | nil => exact absurd hc h
    | cons a l => rfl
  simp [TerariumBuilder.build, hne]

/-- Witness for C4 at the repository's own invalid-group test fixture. -/
theorem build_group_integrity_witness :
    c4Builder.check_group_config_validity ≠ []
    ∧ c4Builder.build okEngine
        = .error (.GroupIntegrityProblem c4Builder.check_group_config_validity) :=
  ⟨by decide, build_group_integrity okEngine c4Builder (by decide)⟩

/-- C2 counterexample: in `c2Builder` the first variant carries the
explicit name `custom`, yet the next (unnamed) variant is compiled as
`template#2` — the claim's "the counter is not consumed" would demand
`template#1`.  Line 159 of src/src/terarium.rs increments the counter
unconditionally. -/
theorem counter_consumed_counterexample :
    c2Probe = some "template#2" ∧ c2Probe ≠ some "template#1" := by
  constructor
  · rfl
  · decide

/-- C2 amended: every content variant is compiled under `contentName`
(the explicit caller-assigned name when present, else the synthetic
counter name), but the counter is consumed by every variant, named or
not: the successor state's counter is always one greater. -/
theorem processContent_consumes_counter (eng : Engine) (tk : String)
    (n : Nat) (inst : Terarium) (c : Content) (st' : Nat × Terarium)
    (h : processContent eng tk (n, inst) c = .ok st') :
    st'.1 = n + 1
    ∧ hmGet st'.2.tera.templates (contentName c n) = some c.content
    ∧ st'.2.template_map
        = recordLangs tk (contentName c n) c.languages inst.template_map := by
  simp only [processContent, Tera.add_raw_template] at h
  cases hc : eng.compile c.content with
  | ok u =>
    rw [hc] at h
    simp only [Except.ok.injEq] at h
    subst h
    exact ⟨rfl, hmGet_hmInsert_self .., rfl⟩
  | error e =>
    rw [hc] at h
    simp at h

/-- Witness for the amended C2: compiling `namedContent` from counter 1
registers it under `custom` and still advances the counter to 2. -/
theorem processContent_consumes_counter_witness :
    processContent okEngine "t" (1, Terarium.empty) namedContent = .ok c2Step
    ∧ (c2Step.1 = 1 + 1
      ∧ hmGet c2Step.2.tera.templates (contentName namedContent 1)
          = some namedContent.content
      ∧ c2Step.2.template_map
          = recordLangs "t" (contentName namedContent 1) namedContent.languages
              Terarium.empty.template_map) :=
  ⟨rfl,
    processContent_consumes_counter okEngine "t" 1 Terarium.empty namedContent c2Step
      rfl⟩

/-- C1: once `render_template` has resolved the template's locale map,
the handle is taken from the requested locale when that locale is present
(the fallback is ignored entirely); otherwise, when a fallback is
provided and present, from the fallback; and when neither is present the
call fails with `LanguageNotFound`. -/
theorem render_template_locale_resolution (eng : Engine) (self : Terarium)
    (ctx : Context) (tk lk : String) (fb : Option String)
    (template : List (String × String))
    (ht : hmGet self.template_map tk = some template) :
    self.render_template eng ctx tk lk fb =
      match hmGet template lk with
      | some ck => renderHandle eng self ck ctx
      | none =>
        match fb with
        | some f =>
          match hmGet template f with
          | some ck => renderHandle eng self ck ctx
          | none => Except.error TerariumError.LanguageNotFound
        | none => Except.error TerariumError.LanguageNotFound := by
  simp only [Terarium.render_template, ht, renderHandle]
  cases h1 : hmGet template lk with
  | some ck => simp [Option.orElse]
  | none =>
    cases fb with
    | none => simp [Option.orElse, Option.join]
    | some f =>
      cases h2 : hmGet template f <;>
        simp [Option.orElse, Option.join, h2]

/-- Witness for C1 at the spec's fixture: `template_a` resolved with
locale `cs` while a fallback is supplied. -/
theorem render_template_locale_resolution_witness :
    hmGet specInst.template_map "template_a" = some specTemplateA
    ∧ specInst.render_template okEngine ([] : Context) "template_a" "cs" (some "en") =
        (match hmGet specTemplateA "cs" with
        | some ck => renderHandle okEngine specInst ck ([] : Context)
        | none =>
          match some "en" with
          | some f =>
            match hmGet specTemplateA f with
            | some ck => renderHandle okEngine specInst ck ([] : Context)
            | none => Except.error TerariumError.LanguageNotFound
          | none => Except.error TerariumError.LanguageNotFound) :=
  ⟨by decide,
    render_template_locale_resolution okEngine specInst ([] : Context) "template_a"
      "cs" (some "en") specTemplateA (by decide)⟩

theorem terraristContents_ok (eng : Engine) :
    ∀ (cs : List (String × List Nat)) (st : Nat × Terrarist),
      (∀ c ∈ cs, eng.compile c.1 = .ok ()) →
      ∃ st', terraristContents eng st cs = .ok st' := by
  intro cs
  induction cs with
  | nil => exact fun st _ => ⟨st, rfl⟩
  | cons c rest ih =>
    intro st hc
    have hcc : eng.compile c.1 = .ok () := hc c (List.mem_cons_self ..)
    have hrest : ∀ c' ∈ rest, eng.compile c'.1 = .ok () :=
      fun c' hm => hc c' (List.mem_cons_of_mem _ hm)
    obtain ⟨st', hst'⟩ :=
      ih (st.1 + 1, ⟨⟨hmInsert (String.append "template#" (toString st.1)) c.1
        st.2.tera.templates⟩⟩) hrest
    refine ⟨st', ?_⟩
    simp [terraristContents, Tera.add_raw_template, hcc, hst']

theorem terraristTemplates_ok (eng : Engine) :
    ∀ (ts : List (Nat × TemplateT)) (st : Nat × Terrarist),
      (∀ kt ∈ ts, ∀ c ∈ kt.2.contents, eng.compile c.1 = .ok ()) →
      ∃ st', terraristTemplates eng st ts = .ok st' := by
  intro ts
  induction ts with
  | nil => exact fun st _ => ⟨st, rfl⟩
  | cons kt rest ih =>
    intro st hc
    obtain ⟨st₁, hst₁⟩ :=
      terraristContents_ok eng kt.2.contents st (hc kt (List.mem_cons_self ..))
    obtain ⟨st', hst'⟩ :=
      ih st₁ (fun kt' hm => hc kt' (List.mem_cons_of_mem _ hm))
    refine ⟨st', ?_⟩
    simp [terraristTemplates, hst₁, hst']

/-- C9: the non-validating `TerraristBuilder::build` runs no group check:
whenever every stored content body compiles, `build` succeeds — no matter
what template keys the groups reference — and any error `build` could
ever return is a `TemplateBuildingError` (the error type has no
group-integrity variant). -/
theorem terrarist_build_no_group_check (eng : Engine) (self : TerraristBuilder)
    (hc : ∀ kt ∈ self.templates, ∀ c ∈ kt.2.contents, eng.compile c.1 = .ok ()) :
    (∃ inst, self.build eng = .ok inst)
    ∧ ∀ e, self.build eng = .error e → ∃ te, e = .TemplateBuildingError te := by
  constructor
  · obtain ⟨st', hst'⟩ :=
      terraristTemplates_ok eng self.templates ((1 : Nat), (⟨Tera.empty⟩ : Terrarist)) hc
    exact ⟨st'.2, by simp [TerraristBuilder.build, hst']⟩
  · intro e _
    cases e with
    | TemplateBuildingError te => exact ⟨te, rfl⟩

/-- Witness for C9: `c9Builder`'s group references the missing template
key 99 (its validity check is non-empty), yet `build` succeeds. -/
theorem terrarist_build_no_group_check_witness :
    c9Builder.check_group_config_validity ≠ []
    ∧ ((∃ inst, c9Builder.build okEngine = .ok inst)
      ∧ ∀ e, c9Builder.build okEngine = .error e →
          ∃ te, e = .TemplateBuildingError te) :=
  ⟨by decide,
    terrarist_build_no_group_check okEngine c9Builder (fun kt _ c _ => rfl)⟩

theorem renderMembers_error (eng : Engine) (self : Terarium) (ctx : Context)
    (lk : String) (fb : Option String) :
    ∀ (group acc : List (String × String)) (mk tk : String) (e : TerariumError),
      (mk, tk) ∈ group →
      self.render_template eng ctx tk lk fb = .error e →
      ∃ e' mk' tk',
        self.renderMembers eng ctx lk fb acc group = .error e'
        ∧ (mk', tk') ∈ group
        ∧ self.render_template eng ctx tk' lk fb = .error e' := by
  intro group
  induction group with
  | nil => intro acc mk tk e hmem; simp at hmem
  | cons hd rest ih =>
    intro acc mk tk e hmem he
    obtain ⟨mk₀, tk₀⟩ := hd
    cases h₀ : self.render_template eng ctx tk₀ lk fb with
    | error e₀ =>
      exact ⟨e₀, mk₀, tk₀, by simp [Terarium.renderMembers, h₀],
        List.mem_cons_self .., h₀⟩
    | ok v₀ =>
      rcases List.mem_cons.mp hmem with hh | hh
      · rw [Prod.mk.injEq] at hh
        rw [← hh.2] at h₀
        rw [h₀] at he
        cases he
      · obtain ⟨e', mk', tk', hrun, hmem', he'⟩ :=
          ih (hmInsert mk₀ v₀ acc) mk tk e hh he
        exact ⟨e', mk', tk',
          by simp [Terarium.renderMembers, h₀, hrun],
          List.mem_cons_of_mem _ hmem', he'⟩

/-- C5: if any member of a found group fails to render — for any reason —
`render_group` returns an error (so no mapping, not even partial, is
returned), and that error is itself the `render_template` error of a
member of the group. -/
theorem render_group_fail_fast (eng : Engine) (self : Terarium) (ctx : Context)
    (gk lk : String) (fb : Option String) (group : List (String × String))
    (mk tk : String) (e : TerariumError)
    (hg : hmGet self.groups gk = some group)
    (hmem : (mk, tk) ∈ group)
    (he : self.render_template eng ctx tk lk fb = .error e) :
    ∃ e' mk' tk',
      self.render_group eng ctx gk lk fb = .error e'
      ∧ (mk', tk') ∈ group
      ∧ self.render_template eng ctx tk' lk fb = .error e' := by
  obtain ⟨e', mk', tk', hrun, hmem', he'⟩ :=
    renderMembers_error eng self ctx lk fb group [] mk tk e hmem he
  exact ⟨e', mk', tk', by simp [Terarium.render_group, hg, hrun], hmem', he'⟩

/-- Witness for C5 at the spec's fixture: rendering `group_a` with locale
`cs` and fallback `fr` fails because member `B`'s template has neither. -/
theorem render_group_fail_fast_witness :
    hmGet specInst.groups "group_a" = some [("A", "template_a"), ("B", "template_b")]
    ∧ ("B", "template_b") ∈ [("A", "template_a"), ("B", "template_b")]
    ∧ specInst.render_template okEngine ([] : Context) "template_b" "cs" (some "fr")
        = .error .LanguageNotFound
    ∧ ∃ e' mk' tk',
        specInst.render_group okEngine ([] : Context) "group_a" "cs" (some "fr")
            = .error e'
        ∧ (mk', tk') ∈ [("A", "template_a"), ("B", "template_b")]
        ∧ specInst.render_template okEngine ([] : Context) tk' "cs" (some "fr")
            = .error e' :=
  ⟨by decide, by decide, by decide,
    render_group_fail_fast okEngine specInst ([] : Context) "group_a" "cs"
      (some "fr") [("A", "template_a"), ("B", "template_b")] "B" "template_b"
      .LanguageNotFound (by decide) (by decide) (by decide)⟩

theorem renderMembers_ok (eng : Engine) (self : Terarium) (ctx : Context)
    (lk : String) (fb : Option String) :
    ∀ (group acc m : List (String × String)),
      self.renderMembers eng ctx lk fb acc group = .ok m →
      (group.map Prod.fst).Nodup →
      (∀ mk tk, (mk, tk) ∈ group →
        ∃ v, self.render_template eng ctx tk lk fb = .ok v ∧ hmGet m mk = some v)
      ∧ (∀ mk, (∀ tk, (mk, tk) ∉ group) → hmGet m mk = hmGet acc mk) := by
  intro group
  induction group with
  | nil =>
    intro acc m hok _
    simp only [Terarium.renderMembers, Except.ok.injEq] at hok
    subst hok
    constructor
    · intro mk tk hmem; simp at hmem
    · intro mk _; rfl
  | cons hd rest ih =>
    intro acc m hok hnd
    obtain ⟨mk₀, tk₀⟩ := hd
    simp only [List.map_cons, List.nodup_cons] at hnd
    cases h₀ : self.render_template eng ctx tk₀ lk fb with
    | error e₀ => simp [Terarium.renderMembers, h₀] at hok
    | ok v₀ =>
      simp only [Terarium.renderMembers, h₀] at hok
      obtain ⟨ih1, ih2⟩ := ih (hmInsert mk₀ v₀ acc) m hok hnd.2
      have hmk₀ : hmGet m mk₀ = some v₀ := by
        have : ∀ tk, (mk₀, tk) ∉ rest := by
          intro tk hc
          exact hnd.1 (List.mem_map.mpr ⟨(mk₀, tk), hc, rfl⟩)
        rw [ih2 mk₀ this]
        exact hmGet_hmInsert_self ..
      constructor
      · intro mk tk hmem
        rcases List.mem_cons.mp hmem with hh | hh
        · rw [Prod.mk.injEq] at hh
          rw [hh.1, hh.2, h₀]
          exact ⟨v₀, rfl, hmk₀⟩
        · exact ih1 mk tk hh
      · intro mk hnot
        have hne : mk ≠ mk₀ := by
          rintro rfl
          exact hnot tk₀ (List.mem_cons_self ..)
        rw [ih2 mk (fun tk hc => hnot tk (List.mem_cons_of_mem _ hc))]
        exact hmGet_hmInsert_ne _ _ _ _ hne

/-- C6: when `render_group` succeeds on a found group (whose member keys
are unique, as a `HashMap` guarantees), the returned mapping holds, for
every group member, exactly the value `render_template` yields for that
member's template under the same context, locale and fallback — and no
key outside the group's member-key set. -/
theorem render_group_success (eng : Engine) (self : Terarium) (ctx : Context)
    (gk lk : String) (fb : Option String)
    (group m : List (String × String))
    (hg : hmGet self.groups gk = some group)
    (hnd : (group.map Prod.fst).Nodup)
    (hok : self.render_group eng ctx gk lk fb = .ok m) :
    (∀ mk tk, (mk, tk) ∈ group →
      ∃ v, self.render_template eng ctx tk lk fb = .ok v ∧ hmGet m mk = some v)
    ∧ (∀ mk, hmGet m mk ≠ none → ∃ tk, (mk, tk) ∈ group) := by
  simp only [Terarium.render_group, hg] at hok
  obtain ⟨h1, h2⟩ := renderMembers_ok eng self ctx lk fb group [] m hok hnd
  refine ⟨h1, ?_⟩
  intro mk hne
  by_contra hc
  push_neg at hc
  exact hne (h2 mk (fun tk => hc tk))

/-- Witness for C6 at the spec's fixture: `group_a` rendered with locale
`cs` and fallback `en` succeeds with one entry per member. -/
theorem render_group_success_witness :
    hmGet specInst.groups "group_a" = some [("A", "template_a"), ("B", "template_b")]
    ∧ ([("A", "template_a"), ("B", "template_b")].map Prod.fst).Nodup
    ∧ specInst.render_group okEngine ([] : Context) "group_a" "cs" (some "en")
        = .ok [("A", "body_a_cs"), ("B", "body_b_en")]
    ∧ ((∀ mk tk, (mk, tk) ∈ [("A", "template_a"), ("B", "template_b")] →
        ∃ v, specInst.render_template okEngine ([] : Context) tk "cs" (some "en")
            = .ok v
          ∧ hmGet [("A", "body_a_cs"), ("B", "body_b_en")] mk = some v)
      ∧ (∀ mk, hmGet [("A", "body_a_cs"), ("B", "body_b_en")] mk ≠ none →
          ∃ tk, (mk, tk) ∈ [("A", "template_a"), ("B", "template_b")])) :=
  ⟨by decide, by decide, by decide,
    render_group_success okEngine specInst ([] : Context) "group_a" "cs" (some "en")
      [("A", "template_a"), ("B", "template_b")]
      [("A", "body_a_cs"), ("B", "body_b_en")]
      (by decide) (by decide) (by decide)⟩

theorem hmContains_eq_false {K V : Type} [DecidableEq K]
    (m : List (K × V)) (k : K) :
    hmContains m k = false ↔ hmGet m k = none := by
  cases h : hmGet m k <;> simp [hmContains, h]

theorem checkGroups_mem {TK GK MK T : Type} [DecidableEq TK]
    (templates : List (TK × T)) (groups : List (GK × List (MK × TK)))
    (gk : GK) (mk : MK) (tk : TK) :
    (gk, mk, tk) ∈ checkGroups templates groups ↔
      ∃ members, (gk, members) ∈ groups ∧ (mk, tk) ∈ members
        ∧ hmGet templates tk = none := by
  constructor
  · intro h
    simp only [checkGroups, List.mem_flatten, List.mem_map] at h
    obtain ⟨l, ⟨⟨gk', members⟩, hg, rfl⟩, hmem⟩ := h
    obtain ⟨⟨mk', tk'⟩, hmf, heq⟩ := List.mem_map.mp hmem
    obtain ⟨hmm, hmc⟩ := List.mem_filter.mp hmf
    simp only [Prod.mk.injEq] at heq
    obtain ⟨rfl, rfl, rfl⟩ := heq
    exact ⟨members, hg, hmm, (hmContains_eq_false ..).mp (by simpa using hmc)⟩
  · rintro ⟨members, hg, hmem, hnone⟩
    simp only [checkGroups, List.mem_flatten, List.mem_map]
    refine ⟨_, ⟨(gk, members), hg, rfl⟩, ?_⟩
    rw [List.mem_map]
    refine ⟨(mk, tk), List.mem_filter.mpr ⟨hmem, ?_⟩, rfl⟩
    simp [hmContains_eq_false, hnone]

theorem checkGroups_nodup {TK GK MK T : Type} [DecidableEq TK]
    (templates : List (TK × T)) (groups : List (GK × List (MK × TK)))
    (hg : (groups.map Prod.fst).Nodup)
    (hm : ∀ g ∈ groups, (g.2.map Prod.fst).Nodup) :
    (checkGroups templates groups).Nodup := by
  rw [checkGroups, List.nodup_flatten]
  constructor
  · intro l hl
    obtain ⟨g, hgmem, rfl⟩ := List.mem_map.mp hl
    refine List.Nodup.map ?_ (List.Nodup.filter _ ((hm g hgmem).of_map _))
    intro a b hab
    simp only [Prod.mk.injEq] at hab
    exact Prod.ext_iff.mpr ⟨hab.2.1, hab.2.2⟩
  · rw [List.pairwise_map]
    have hg' : groups.Pairwise (fun a b => a.1 ≠ b.1) := List.pairwise_map.mp hg
    refine hg'.imp ?_
    intro a b hne x hxa hxb
    obtain ⟨m, _, rfl⟩ := List.mem_map.mp hxa
    obtain ⟨m', _, heq⟩ := List.mem_map.mp hxb
    rw [Prod.mk.injEq] at heq
    exact hne heq.1.symm

/-- C3: `check_group_config_validity` — `checkGroups` on the builder's
fields, for both `TerariumBuilder` and `TerraristBuilder` — contains a
triple exactly for the members whose referenced template key is missing
(so it is empty iff every member references an existing template, and no
group short-circuits any other), and, with the key uniqueness a `HashMap`
guarantees, each violating member contributes exactly one triple. -/
theorem check_group_config_validity_spec {TK GK MK T : Type} [DecidableEq TK]
    (templates : List (TK × T)) (groups : List (GK × List (MK × TK)))
    (hg : (groups.map Prod.fst).Nodup)
    (hm : ∀ g ∈ groups, (g.2.map Prod.fst).Nodup) :
    (∀ gk mk tk, (gk, mk, tk) ∈ checkGroups templates groups ↔
      ∃ members, (gk, members) ∈ groups ∧ (mk, tk) ∈ members
        ∧ hmGet templates tk = none)
    ∧ (checkGroups templates groups).Nodup
    ∧ (checkGroups templates groups = [] ↔
      ∀ g ∈ groups, ∀ m ∈ g.2, hmGet templates m.2 ≠ none) := by
  refine ⟨fun gk mk tk => checkGroups_mem .., checkGroups_nodup templates groups hg hm, ?_⟩
  rw [List.eq_nil_iff_forall_not_mem]
  constructor
  · intro h g hgm m hmm hnone
    exact h (g.1, m.1, m.2)
      ((checkGroups_mem ..).mpr ⟨g.2, by rwa [Prod.mk.eta], by rwa [Prod.mk.eta], hnone⟩)
  · rintro h ⟨gk, mk, tk⟩ hmem
    obtain ⟨members, hgm, hmm, hnone⟩ := (checkGroups_mem ..).mp hmem
    exact h (gk, members) hgm (mk, tk) hmm hnone

/-- Witness for C3 at the repository's own test fixture: templates `1`,
`2` and a group whose members reference `1`, `2` and the missing `3`. -/
theorem check_group_config_validity_spec_witness :
    ((c3Groups.map Prod.fst).Nodup ∧ ∀ g ∈ c3Groups, (g.2.map Prod.fst).Nodup)
    ∧ (("100", "30", "3") ∈ checkGroups c3Templates c3Groups ↔
        ∃ members, ("100", members) ∈ c3Groups ∧ ("30", "3") ∈ members
          ∧ hmGet c3Templates "3" = none)
    ∧ (checkGroups c3Templates c3Groups).Nodup :=
  ⟨⟨by decide, by decide⟩,
    (check_group_config_validity_spec c3Templates c3Groups (by decide)
      (by decide)).1 "100" "30" "3",
    (check_group_config_validity_spec c3Templates c3Groups (by decide)
      (by decide)).2.1⟩

theorem hmGet2_congr (tm tm' : List (String × List (String × String)))
    (tk lk : String) (h : hmGet tm tk = hmGet tm' tk) :
    hmGet2 tm tk lk = hmGet2 tm' tk lk := by
  simp only [hmGet2, h]

theorem hmGet_recordLangs_ne (tk tk' nm : String) (langs : List String) :
    ∀ tm, tk' ≠ tk →
      hmGet (recordLangs tk nm langs tm) tk' = hmGet tm tk' := by
  induction langs with
  | nil => intro tm _; rfl
  | cons l ls ih =>
    intro tm hne
    simp only [recordLangs, List.foldl_cons]
    rw [show (List.foldl _ _ ls : List (String × List (String × String)))
        = recordLangs tk nm ls
            (hmInsert tk (hmInsert l nm ((hmGet tm tk).getD [])) tm) from rfl]
    rw [ih _ hne]
    exact hmGet_hmInsert_ne _ _ _ _ hne

theorem hmGet2_recordLangs (tk nm lk : String) (langs : List String) :
    ∀ tm, hmGet2 (recordLangs tk nm langs tm) tk lk
      = if lk ∈ langs then some nm else hmGet2 tm tk lk := by
  induction langs with
  | nil => intro tm; simp [recordLangs]
  | cons l ls ih =>
    intro tm
    simp only [recordLangs, List.foldl_cons]
    rw [show (List.foldl _ _ ls : List (String × List (String × String)))
        = recordLangs tk nm ls
            (hmInsert tk (hmInsert l nm ((hmGet tm tk).getD [])) tm) from rfl]
    rw [ih]
    have hbase : hmGet2 (hmInsert tk (hmInsert l nm ((hmGet tm tk).getD [])) tm) tk lk
        = if lk = l then some nm else hmGet2 tm tk lk := by
      simp only [hmGet2, hmGet_hmInsert_self, Option.getD_some]
      rw [hmGet_hmInsert]
    rw [hbase]
    by_cases h1 : lk ∈ ls
    · simp [h1]
    · by_cases h2 : lk = l <;> simp [h1, h2]

theorem processContent_parts (eng : Engine) (tk : String) (st : Nat × Terarium)
    (c : Content) (st' : Nat × Terarium)
    (h : processContent eng tk st c = .ok st') :
    st'.1 = st.1 + 1
    ∧ st'.2.template_map
        = recordLangs tk (contentName c st.1) c.languages st.2.template_map := by
  simp only [processContent, Tera.add_raw_template] at h
  cases hc : eng.compile c.content with
  | ok u =>
    rw [hc] at h
    simp only [Except.ok.injEq] at h
    subst h
    exact ⟨rfl, rfl⟩
  | error e =>
    rw [hc] at h
    simp at h

theorem processContents_parts (eng : Engine) (tk : String) :
    ∀ (cs : List Content) (st st' : Nat × Terarium),
      processContents eng tk st cs = .ok st' →
      st'.1 = st.1 + cs.length
      ∧ (∀ lk, hmGet2 st'.2.template_map tk lk =
          match lastNameFor st.1 cs lk with
          | some nm => some nm
          | none => hmGet2 st.2.template_map tk lk)
      ∧ (∀ tk', tk' ≠ tk →
          hmGet st'.2.template_map tk' = hmGet st.2.template_map tk') := by
  intro cs
  induction cs with
  | nil =>
    intro st st' h
    simp only [processContents, Except.ok.injEq] at h
    subst h
    refine ⟨rfl, fun lk => ?_, fun tk' _ => rfl⟩
    simp [lastNameFor]
  | cons c rest ih =>
    intro st st' h
    simp only [processContents] at h
    cases hc : processContent eng tk st c with
    | error e => rw [hc] at h; simp at h
    | ok st₁ =>
      rw [hc] at h
      obtain ⟨hn₁, hm₁⟩ := processContent_parts eng tk st c st₁ hc
      obtain ⟨ihn, ihm, ihp⟩ := ih st₁ st' h
      refine ⟨?_, fun lk => ?_, fun tk' hne => ?_⟩
      · rw [ihn, hn₁, List.length_cons]
        omega
      · rw [ihm lk, hn₁]
        have hrec : hmGet2 st₁.2.template_map tk lk
            = if lk ∈ c.languages then some (contentName c st.1)
              else hmGet2 st.2.template_map tk lk := by
          rw [hm₁]
          exact hmGet2_recordLangs ..
        show (match lastNameFor (st.1 + 1) rest lk with
              | some nm => some nm
              | none => hmGet2 st₁.2.template_map tk lk)
            = match lastNameFor st.1 (c :: rest) lk with
              | some nm => some nm
              | none => hmGet2 st.2.template_map tk lk
        rw [show lastNameFor st.1 (c :: rest) lk
            = match lastNameFor (st.1 + 1) rest lk with
              | some nm => some nm
              | none =>
                if lk ∈ c.languages then some (contentName c st.1) else none
            from rfl]
        cases hlast : lastNameFor (st.1 + 1) rest lk with
        | some nm => rfl
        | none =>
          rw [hrec]
          by_cases hl : lk ∈ c.languages <;> simp [hl]
      · rw [ihp tk' hne, hm₁]
        exact hmGet_recordLangs_ne _ _ _ _ _ hne

theorem processTemplates_parts (eng : Engine) (tk : String) :
    ∀ (ts : List (String × Template)) (st st' : Nat × Terarium),
      processTemplates eng st ts = .ok st' →
      (ts.map Prod.fst).Nodup →
      (∀ t, hmGet ts tk = some t →
        ∀ lk, hmGet2 st'.2.template_map tk lk =
          match lastNameFor (st.1 + contentsBefore ts tk) t.contents lk with
          | some nm => some nm
          | none => hmGet2 st.2.template_map tk lk)
      ∧ (hmGet ts tk = none →
          hmGet st'.2.template_map tk = hmGet st.2.template_map tk) := by
  intro ts
  induction ts with
  | nil =>
    intro st st' h _
    simp only [processTemplates, Except.ok.injEq] at h
    subst h
    exact ⟨fun t ht => by simp [hmGet] at ht, fun _ => rfl⟩
  | cons hd rest ih =>
    intro st st' h hnd
    obtain ⟨k, t₀⟩ := hd
    simp only [processTemplates] at h
    cases hpc : processContents eng k st t₀.collect_contents with
    | error e => rw [hpc] at h; simp at h
    | ok st₁ =>
      rw [hpc] at h
      obtain ⟨hn₁, hm₁, hp₁⟩ := processContents_parts eng k t₀.collect_contents st st₁ hpc
      simp only [List.map_cons, List.nodup_cons] at hnd
      obtain ⟨ih1, ih2⟩ := ih st₁ st' h hnd.2
      by_cases hk : tk = k
      · subst hk
        have hrest : hmGet rest tk = none :=
          hmGet_eq_none_of_not_mem_keys _ _ hnd.1
        constructor
        · intro t ht lk
          rw [show hmGet ((tk, t₀) :: rest) tk = some t₀ from by simp [hmGet]] at ht
          obtain rfl : t₀ = t := Option.some.inj ht
          have houter : hmGet st'.2.template_map tk = hmGet st₁.2.template_map tk :=
            ih2 hrest
          rw [hmGet2_congr _ _ _ lk houter, hm₁ lk]
          rw [show contentsBefore ((tk, t₀) :: rest) tk = 0 from by
            simp [contentsBefore]]
          rw [Nat.add_zero]
          rfl
        · intro hnone
          rw [show hmGet ((tk, t₀) :: rest) tk = some t₀ from by simp [hmGet]] at hnone
          cases hnone
      · have hcons : hmGet ((k, t₀) :: rest) tk = hmGet rest tk := by
          simp [hmGet, hk]
        have houter₁ : hmGet st₁.2.template_map tk = hmGet st.2.template_map tk :=
          hp₁ tk hk
        constructor
        · intro t ht lk
          rw [hcons] at ht
          rw [ih1 t ht lk]
          rw [show contentsBefore ((k, t₀) :: rest) tk
              = t₀.contents.length + contentsBefore rest tk from by
            simp [contentsBefore, hk]]
          rw [hn₁]
          rw [show st.1 + t₀.collect_contents.length + contentsBefore rest tk
              = st.1 + (t₀.contents.length + contentsBefore rest tk) from by
            simp [Template.collect_contents]
            omega]
          rw [hmGet2_congr _ _ _ lk houter₁]
        · intro hnone
          rw [hcons] at hnone
          rw [ih2 hnone, houter₁]

theorem build_ok_parts (eng : Engine) (self : TerariumBuilder) (inst : Terarium)
    (hb : self.build eng = .ok inst) :
    ∃ st, processTemplates eng (1, Terarium.empty) self.templates = .ok st
      ∧ inst.template_map = st.2.template_map := by
  simp only [TerariumBuilder.build] at hb
  cases hie : self.check_group_config_validity.isEmpty with
  | false => rw [hie] at hb; simp at hb
  | true =>
    rw [hie] at hb
    simp only [if_true] at hb
    cases hpt : processTemplates eng (1, Terarium.empty) self.templates with
    | error e => rw [hpt] at hb; simp at hb
    | ok st =>
      rw [hpt] at hb
      simp only [Except.ok.injEq] at hb
      exact ⟨st, rfl, by rw [← hb]⟩

/-- C8: for a built repository, the (TemplateKey, LocaleKey) → handle-name
index holds, for each locale, exactly the handle assigned to the last
content variant (in `collect_contents` insertion order) of that template
tagged with that locale — `lastNameFor` prefers later variants, so a later
variant retagging an already-mapped locale silently overwrites the earlier
mapping, and the successful build reports no error for it.  The counter
base `1 + contentsBefore` accounts for the variants of templates compiled
earlier in the builder's iteration order. -/
theorem build_index_last_wins (eng : Engine) (self : TerariumBuilder)
    (inst : Terarium) (tk : String) (t : Template) (lk : String)
    (hn : (self.templates.map Prod.fst).Nodup)
    (hmem : hmGet self.templates tk = some t)
    (hb : self.build eng = .ok inst) :
    hmGet2 inst.template_map tk lk
      = lastNameFor (1 + contentsBefore self.templates tk) t.contents lk := by
  obtain ⟨st, hpt, htm⟩ := build_ok_parts eng self inst hb
  obtain ⟨h1, _⟩ := processTemplates_parts eng tk self.templates (1, Terarium.empty) st hpt hn
  rw [htm, h1 t hmem lk]
  cases lastNameFor (1 + contentsBefore self.templates tk) t.contents lk with
  | some nm => rfl
  | none => rfl

/-- Witness for C8: in `c8Builder` both variants tag locale `en`; the
index maps `en` to the second variant's handle. -/
theorem build_index_last_wins_witness :
    ((c8Builder.templates.map Prod.fst).Nodup
      ∧ hmGet c8Builder.templates "t" = some c8Template
      ∧ c8Builder.build okEngine = .ok c8Inst)
    ∧ hmGet2 c8Inst.template_map "t" "en"
        = lastNameFor (1 + contentsBefore c8Builder.templates "t")
            c8Template.contents "en" :=
  ⟨⟨by decide, by decide, rfl⟩,
    build_index_last_wins okEngine c8Builder c8Inst "t" c8Template "en"
      (by decide) (by decide) rfl⟩

theorem processTemplates_all_empty (eng : Engine) (K : String) :
    ∀ (ts : List (String × Template)) (st st' : Nat × Terarium),
      processTemplates eng st ts = .ok st' →
      (∀ t, (K, t) ∈ ts → t.contents = []) →
      hmGet st'.2.template_map K = hmGet st.2.template_map K := by
  intro ts
  induction ts with
  | nil =>
    intro st st' h _
    simp only [processTemplates, Except.ok.injEq] at h
    subst h
    rfl
  | cons hd rest ih =>
    intro st st' h hemp
    obtain ⟨k, t₀⟩ := hd
    simp only [processTemplates] at h
    cases hpc : processContents eng k st t₀.collect_contents with
    | error e => rw [hpc] at h; simp at h
    | ok st₁ =>
      rw [hpc] at h
      by_cases hk : k = K
      · subst hk
        have hc0 : t₀.contents = [] := hemp t₀ (List.mem_cons_self ..)
        have hst₁ : st₁ = st := by
          rw [show t₀.collect_contents = t₀.contents from rfl, hc0] at hpc
          simpa [processContents] using hpc.symm
        rw [ih st₁ st' h (fun t ht => hemp t (List.mem_cons_of_mem _ ht)), hst₁]
      · have hp := (processContents_parts eng k t₀.collect_contents st st₁ hpc).2.2
        rw [ih st₁ st' h (fun t ht => hemp t (List.mem_cons_of_mem _ ht))]
        exact hp K (fun hc => hk hc.symm)

/-- C10: a template stored with zero content variants still counts as an
existing template for group validation (`hmContains` is true for its key),
and when `build` succeeds the resulting repository's index has no entry
for that key at all, so `render_template` answers `TemplateNotFound` for
every context, locale and fallback — indistinguishable from a template
that was never added. -/
theorem empty_template_renders_not_found (eng : Engine) (self : TerariumBuilder)
    (inst : Terarium) (K : String) (t : Template)
    (hn : (self.templates.map Prod.fst).Nodup)
    (hmem : hmGet self.templates K = some t)
    (hempty : t.contents = [])
    (hb : self.build eng = .ok inst) :
    hmContains self.templates K = true
    ∧ ∀ (ctx : Context) (lk : String) (fb : Option String),
        inst.render_template eng ctx K lk fb = .error .TemplateNotFound := by
  constructor
  · simp [hmContains, hmem]
  · obtain ⟨st, hpt, htm⟩ := build_ok_parts eng self inst hb
    have hall : ∀ t', (K, t') ∈ self.templates → t'.contents = [] := by
      intro t' ht'
      have := hmGet_eq_some_of_mem self.templates K t' hn ht'
      rw [hmem] at this
      obtain rfl : t = t' := Option.some.inj this
      exact hempty
    have hnone : hmGet inst.template_map K = none := by
      rw [htm, processTemplates_all_empty eng K self.templates (1, Terarium.empty) st hpt hall]
      rfl
    intro ctx lk fb
    simp [Terarium.render_template, hnone]

/-- Witness for C10: `c10Builder` stores the empty template `k`,
referenced by group `g`; the build succeeds and `k` renders
`TemplateNotFound`. -/
theorem empty_template_renders_not_found_witness :
    ((c10Builder.templates.map Prod.fst).Nodup
      ∧ hmGet c10Builder.templates "k" = some (⟨[]⟩ : Template)
      ∧ c10Builder.build okEngine = .ok c10Inst)
    ∧ hmContains c10Builder.templates "k" = true
    ∧ ∀ (ctx : Context) (lk : String) (fb : Option String),
        c10Inst.render_template okEngine ctx "k" lk fb
          = .error .TemplateNotFound :=
  ⟨⟨by decide, by decide, rfl⟩,
    empty_template_renders_not_found okEngine c10Builder c10Inst "k" ⟨[]⟩
      (by decide) (by decide) rfl rfl⟩
